import Mathlib

/-!
Verification of the terzo-posto-server supply cost-resolution engine and the
related order / open-account ("tab") logic, as a shallow embedding of the
JavaScript source under `src/routes/`.

Conventions of the embedding:
* JavaScript numbers that hold money / quantities are modelled as `ℚ`.
* A nullable JS value is an `Option`.
* The supply map `suppliesById` (a JS object keyed by supply id, where the key
  always equals the stored object's `id`) is modelled as a `List Supply`
  looked up with `findSupply`; JS key assignment (replacement) is
  `insertSupply`.
* The recursive `getSupplyCostPerUnit` of `src/routes/supplies.js` terminates
  in JS because the per-path `visited` set (copied into each recursive call
  via `new Set(visited)`) forbids revisiting ids on the current path.  The
  Lean embedding makes this explicit with a fuel parameter; `g.length + 2`
  fuel is proved sufficient below, so the fueled function agrees with the
  JS function everywhere.
-/

/-- One normalized recipe line `{ supplyId, quantity }`
(`normalizeRecipeLine` output, `src/routes/supplies.js` lines 21-26). -/
structure RecipeLine where
  supplyId : String
  quantity : ℚ
  deriving Repr, DecidableEq

/-- The internal supply representation produced by `rowToSupplyInternal`
(`src/routes/supplies.js` lines 51-67).  `type` is the raw string stored in
the database: the resolver treats `"purchased"` specially and everything else
as composed, exactly as the JS `if (supply.type === 'purchased')` does. -/
structure Supply where
  id : String
  name : String
  type : String
  unit : Option String
  purchase_price : Option ℚ
  purchase_quantity : Option ℚ
  recipe : List RecipeLine
  yield_amount : Option ℚ
  yield_unit : Option String
  deriving Repr, DecidableEq

/-- Outcome of one cost resolution: the JS function either returns a number
(`cost`), returns `null` (`unknown`), or throws
`'Circular reference in supply recipe'` (`cycleDetected`).  `outOfFuel` is an
artifact of the fueled embedding and is proved unreachable at the canonical
fuel. -/
inductive CostOutcome where
  | outOfFuel
  | cycleDetected
  | unknown
  | cost (c : ℚ)
  deriving Repr, DecidableEq

deriving instance DecidableEq for Except

/-- Lookup in the `suppliesById` map: the JS object is keyed by the supply's
own `id`, so lookup finds the entry whose `id` matches. -/
def findSupply (g : List Supply) (key : String) : Option Supply :=
  g.find? (fun t => t.id = key)

/-- JS map assignment `suppliesById[id] = s`: replaces any existing entry
with the same id. -/
def insertSupply (g : List Supply) (s : Supply) : List Supply :=
  s :: g.filter (fun t => t.id ≠ s.id)

/-- The `for (const line of supply.recipe)` loop of `getSupplyCostPerUnit`
(`src/routes/supplies.js` lines 89-96), abstracted over the recursive
resolution of a sub-supply.  It accumulates `subCost * line.quantity`,
returns `unknown` on the first missing (`!sub`) or unknown
(`subCost == null`) line, and propagates a thrown cycle error. -/
def sumLinesWith (resolve : Supply → CostOutcome) :
    List RecipeLine → List Supply → CostOutcome
  | [], _ => .cost 0
  | line :: rest, g =>
    match findSupply g line.supplyId with
    | none => .unknown
    | some sub =>
      match resolve sub with
      | .cost subCost =>
        match sumLinesWith resolve rest g with
        | .cost acc => .cost (subCost * line.quantity + acc)
        | r => r
      | r => r

/-- Fueled embedding of `getSupplyCostPerUnit(supply, suppliesById, visited)`
(`src/routes/supplies.js` lines 73-101).  The JS `visited` set is the
in-progress path set: it is consulted on entry, the current id is added, and
each recursive call receives a copy (`new Set(visited)`), which is exactly
`insert s.id visited` passed by value. -/
def resolveFuel : Nat → Supply → List Supply → Finset String → CostOutcome
  | 0, _, _, _ => .outOfFuel
  | fuel + 1, s, g, visited =>
    if s.id ∈ visited then .cycleDetected
    else if s.type = "purchased" then
      match s.purchase_price, s.purchase_quantity with
      | some price, some qty => if qty ≤ 0 then .unknown else .cost (price / qty)
      | some _, none => .unknown
      | none, _ => .unknown
    else if s.recipe = [] then .unknown
    else
      match s.yield_amount with
      | none => .unknown
      | some ya =>
        if ya ≤ 0 then .unknown
        else
          match sumLinesWith (fun sub => resolveFuel fuel sub g (insert s.id visited)) s.recipe g with
          | .cost total => .cost (total / ya)
          | r => r

/-- `getSupplyCostPerUnit(supply, suppliesById)` with the default fresh
`visited = new Set()`, at the canonical fuel `g.length + 2`, which is proved
sufficient (`getSupplyCostPerUnit_ne_outOfFuel`). -/
def getSupplyCostPerUnit (s : Supply) (g : List Supply) : CostOutcome :=
  resolveFuel (g.length + 2) s g ∅

/-- Canonical resolution of a supply under a given in-progress path set, used
to state facts about sub-resolutions. -/
def resolveIn (s : Supply) (g : List Supply) (visited : Finset String) : CostOutcome :=
  resolveFuel (g.length + 2) s g visited

/-- The set of ids present in the supply map. -/
def idsFinset (g : List Supply) : Finset String :=
  (g.map (fun s => s.id)).toFinset

lemma findSupply_mem {g : List Supply} {k : String} {sub : Supply}
    (h : findSupply g k = some sub) : sub ∈ g ∧ sub.id = k := by
  unfold findSupply at h
  refine ⟨List.mem_of_find?_eq_some h, ?_⟩
  have := List.find?_some h
  simpa using this

lemma mem_idsFinset_of_mem {g : List Supply} {s : Supply} (h : s ∈ g) :
    s.id ∈ idsFinset g := by
  unfold idsFinset
  rw [List.mem_toFinset, List.mem_map]
  exact ⟨s, h, rfl⟩

lemma idsFinset_card_le (g : List Supply) : (idsFinset g).card ≤ g.length := by
  unfold idsFinset
  have h := List.toFinset_card_le (g.map (fun s => s.id))
  simpa using h

/-! ### Generic lemmas about the recipe-line loop -/

lemma sumLinesWith_ne_outOfFuel {resolve : Supply → CostOutcome}
    {lines : List RecipeLine} {g : List Supply}
    (h : ∀ l ∈ lines, ∀ sub, findSupply g l.supplyId = some sub →
      resolve sub ≠ .outOfFuel) :
    sumLinesWith resolve lines g ≠ .outOfFuel := by
  induction lines with
  | nil => simp [sumLinesWith]
  | cons line rest ih =>
    simp only [sumLinesWith]
    cases hf : findSupply g line.supplyId with
    | none => simp
    | some sub =>
      have hne := h line (by simp) sub hf
      dsimp only
      cases hr : resolve sub with
      | outOfFuel => exact absurd hr hne
      | cycleDetected => simp
      | unknown => simp
      | cost c =>
        have ih' := ih (fun l hl sub' hf' => h l (by simp [hl]) sub' hf')
        dsimp only
        cases hs : sumLinesWith resolve rest g with
        | outOfFuel => exact absurd hs ih'
        | cycleDetected => simp
        | unknown => simp
        | cost acc => simp

lemma sumLinesWith_congr_of_ne_outOfFuel {r1 r2 : Supply → CostOutcome}
    {lines : List RecipeLine} {g : List Supply}
    (h : ∀ sub, r1 sub ≠ .outOfFuel → r2 sub = r1 sub)
    (hne : sumLinesWith r1 lines g ≠ .outOfFuel) :
    sumLinesWith r2 lines g = sumLinesWith r1 lines g := by
  induction lines with
  | nil => simp [sumLinesWith]
  | cons line rest ih =>
    simp only [sumLinesWith] at hne ⊢
    cases hf : findSupply g line.supplyId with
    | none => simp
    | some sub =>
      rw [hf] at hne
      dsimp only at hne ⊢
      cases hr : r1 sub with
      | outOfFuel => rw [hr] at hne; simp at hne
      | cycleDetected => rw [h sub (by rw [hr]; simp), hr]
      | unknown => rw [h sub (by rw [hr]; simp), hr]
      | cost c =>
        rw [h sub (by rw [hr]; simp), hr]
        rw [hr] at hne
        dsimp only at hne ⊢
        cases hs : sumLinesWith r1 rest g with
        | outOfFuel => rw [hs] at hne; simp at hne
        | cycleDetected => rw [ih (by rw [hs]; simp), hs]
        | unknown => rw [ih (by rw [hs]; simp), hs]
        | cost acc => rw [ih (by rw [hs]; simp), hs]

lemma sumLinesWith_cost {resolve : Supply → CostOutcome}
    {lines : List RecipeLine} {g : List Supply} (f : RecipeLine → ℚ)
    (h : ∀ l ∈ lines, ∃ sub, findSupply g l.supplyId = some sub ∧
      resolve sub = .cost (f l)) :
    sumLinesWith resolve lines g =
      .cost ((lines.map (fun l => f l * l.quantity)).sum) := by
  induction lines with
  | nil => simp [sumLinesWith]
  | cons line rest ih =>
    obtain ⟨sub, hf, hr⟩ := h line (by simp)
    have ih' := ih (fun l hl => h l (by simp [hl]))
    simp only [sumLinesWith, hf, hr, ih', List.map_cons, List.sum_cons]

lemma sumLinesWith_unknown_of_break {resolve : Supply → CostOutcome}
    {g : List Supply} (pre : List RecipeLine) (line : RecipeLine)
    (post : List RecipeLine)
    (hpre : ∀ l ∈ pre, ∃ sub c, findSupply g l.supplyId = some sub ∧
      resolve sub = .cost c)
    (hline : findSupply g line.supplyId = none ∨
      ∃ sub, findSupply g line.supplyId = some sub ∧ resolve sub = .unknown) :
    sumLinesWith resolve (pre ++ line :: post) g = .unknown := by
  induction pre with
  | nil =>
    rcases hline with hf | ⟨sub, hf, hr⟩
    · simp [sumLinesWith, hf]
    · simp [sumLinesWith, hf, hr]
  | cons p rest ih =>
    obtain ⟨sub, c, hf, hr⟩ := hpre p (by simp)
    have ih' := ih (fun l hl => hpre l (by simp [hl]))
    simp [sumLinesWith, hf, hr, ih']

lemma sumLinesWith_cycle_exists {resolve : Supply → CostOutcome}
    {lines : List RecipeLine} {g : List Supply}
    (h : sumLinesWith resolve lines g = .cycleDetected) :
    ∃ l ∈ lines, ∃ sub, findSupply g l.supplyId = some sub ∧
      resolve sub = .cycleDetected := by
  induction lines with
  | nil => simp [sumLinesWith] at h
  | cons line rest ih =>
    simp only [sumLinesWith] at h
    cases hf : findSupply g line.supplyId with
    | none => rw [hf] at h; simp at h
    | some sub =>
      rw [hf] at h
      dsimp only at h
      cases hr : resolve sub with
      | outOfFuel => rw [hr] at h; simp at h
      | cycleDetected => exact ⟨line, by simp, sub, hf, hr⟩
      | unknown => rw [hr] at h; simp at h
      | cost c =>
        rw [hr] at h
        dsimp only at h
        cases hs : sumLinesWith resolve rest g with
        | outOfFuel => rw [hs] at h; simp at h
        | cycleDetected =>
          obtain ⟨l, hl, sub', hf', hr'⟩ := ih hs
          exact ⟨l, by simp [hl], sub', hf', hr'⟩
        | unknown => rw [hs] at h; simp at h
        | cost acc => rw [hs] at h; simp at h

/-! ### Fuel is an artifact: sufficiency and stability -/

lemma resolveFuel_ne_outOfFuel :
    ∀ fuel s g visited, s.id ∈ idsFinset g ∪ visited →
      (idsFinset g \ visited).card < fuel →
      resolveFuel fuel s g visited ≠ .outOfFuel := by
  intro fuel
  induction fuel with
  | zero => intro s g visited _ hcard; omega
  | succ fuel ih =>
    intro s g visited hmem hcard
    by_cases hvis : s.id ∈ visited
    · simp [resolveFuel, hvis]
    · have hids : s.id ∈ idsFinset g := by
        rcases Finset.mem_union.mp hmem with h | h
        · exact h
        · exact absurd h hvis
      simp only [resolveFuel, if_neg hvis]
      by_cases hp : s.type = "purchased"
      · rw [if_pos hp]
        cases hpp : s.purchase_price with
        | none => simp
        | some price =>
          cases hpq : s.purchase_quantity with
          | none => simp
          | some qty =>
            dsimp only
            split <;> simp
      · rw [if_neg hp]
        by_cases hrec : s.recipe = []
        · simp [hrec]
        · rw [if_neg hrec]
          cases hya : s.yield_amount with
          | none => simp
          | some ya =>
            dsimp only
            by_cases hya0 : ya ≤ 0
            · simp [hya0]
            · rw [if_neg hya0]
              have hsid : s.id ∈ idsFinset g \ visited :=
                Finset.mem_sdiff.mpr ⟨hids, hvis⟩
              have hsub_ne : ∀ l ∈ s.recipe, ∀ sub,
                  findSupply g l.supplyId = some sub →
                  resolveFuel fuel sub g (insert s.id visited) ≠ .outOfFuel := by
                intro l _ sub hf
                have hsub := findSupply_mem hf
                apply ih sub g (insert s.id visited)
                · exact Finset.mem_union.mpr (Or.inl (mem_idsFinset_of_mem hsub.1))
                · have hdiff : idsFinset g \ insert s.id visited =
                      (idsFinset g \ visited).erase s.id := by
                    ext a
                    simp only [Finset.mem_sdiff, Finset.mem_erase, Finset.mem_insert]
                    tauto
                  rw [hdiff, Finset.card_erase_of_mem hsid]
                  have hpos : 0 < (idsFinset g \ visited).card :=
                    Finset.card_pos.mpr ⟨s.id, hsid⟩
                  omega
              have hsum := sumLinesWith_ne_outOfFuel hsub_ne
              cases hs : sumLinesWith
                  (fun sub => resolveFuel fuel sub g (insert s.id visited))
                  s.recipe g with
              | outOfFuel => exact absurd hs hsum
              | cycleDetected => simp
              | unknown => simp
              | cost total => simp

lemma resolveFuel_stable :
    ∀ fuel fuel' s g visited, fuel ≤ fuel' →
      resolveFuel fuel s g visited ≠ .outOfFuel →
      resolveFuel fuel' s g visited = resolveFuel fuel s g visited := by
  intro fuel
  induction fuel with
  | zero =>
    intro fuel' s g visited _ hne
    simp [resolveFuel] at hne
  | succ fuel ih =>
    intro fuel' s g visited hle hne
    obtain ⟨f', rfl⟩ : ∃ f', fuel' = f' + 1 := ⟨fuel' - 1, by omega⟩
    have hf : fuel ≤ f' := by omega
    by_cases hvis : s.id ∈ visited
    · simp [resolveFuel, hvis]
    · simp only [resolveFuel, if_neg hvis] at hne ⊢
      by_cases hp : s.type = "purchased"
      · simp only [if_pos hp]
      · simp only [if_neg hp] at hne ⊢
        by_cases hrec : s.recipe = []
        · simp [hrec]
        · simp only [if_neg hrec] at hne ⊢
          cases hya : s.yield_amount with
          | none => simp
          | some ya =>
            rw [hya] at hne
            dsimp only at hne ⊢
            by_cases hya0 : ya ≤ 0
            · simp [hya0]
            · simp only [if_neg hya0] at hne ⊢
              have hsum_ne : sumLinesWith
                  (fun sub => resolveFuel fuel sub g (insert s.id visited))
                  s.recipe g ≠ .outOfFuel := by
                intro hoof
                rw [hoof] at hne
                simp at hne
              have hcongr := @sumLinesWith_congr_of_ne_outOfFuel
                (fun sub => resolveFuel fuel sub g (insert s.id visited))
                (fun sub => resolveFuel f' sub g (insert s.id visited))
                s.recipe g
                (fun sub hsub => ih f' sub g (insert s.id visited) hf hsub)
                hsum_ne
              rw [hcongr]

/-- The canonical fuel `g.length + 2` never runs out: the in-progress path
set grows inside `idsFinset g` after the first step, bounding recursion
depth. -/
lemma getSupplyCostPerUnit_ne_outOfFuel (s : Supply) (g : List Supply) :
    getSupplyCostPerUnit s g ≠ .outOfFuel := by
  unfold getSupplyCostPerUnit
  have hcard : (idsFinset g \ (∅ : Finset String)).card < g.length + 1 := by
    have h1 : (idsFinset g \ (∅ : Finset String)).card ≤ (idsFinset g).card :=
      Finset.card_le_card (Finset.sdiff_subset)
    have h2 := idsFinset_card_le g
    omega
  by_cases hmem : s.id ∈ idsFinset g
  · exact resolveFuel_ne_outOfFuel (g.length + 2) s g ∅
      (Finset.mem_union.mpr (Or.inl hmem)) (by omega)
  · -- the root id may be absent from the map; unfold one step by hand
    show resolveFuel (g.length + 1 + 1) s g ∅ ≠ .outOfFuel
    rw [resolveFuel]
    simp only [Finset.not_mem_empty, if_false]
    by_cases hp : s.type = "purchased"
    · rw [if_pos hp]
      cases hpp : s.purchase_price with
      | none => simp
      | some price =>
        cases hpq : s.purchase_quantity with
        | none => simp
        | some qty =>
          dsimp only
          split <;> simp
    · rw [if_neg hp]
      by_cases hrec : s.recipe = []
      · simp [hrec]
      · rw [if_neg hrec]
        cases hya : s.yield_amount with
        | none => simp
        | some ya =>
          dsimp only
          by_cases hya0 : ya ≤ 0
          · simp [hya0]
          · rw [if_neg hya0]
            have hsub_ne : ∀ l ∈ s.recipe, ∀ sub,
                findSupply g l.supplyId = some sub →
                resolveFuel (g.length + 1) sub g (insert s.id ∅) ≠ .outOfFuel := by
              intro l _ sub hf
              have hsub := findSupply_mem hf
              apply resolveFuel_ne_outOfFuel
              · exact Finset.mem_union.mpr (Or.inl (mem_idsFinset_of_mem hsub.1))
              · have h1 : (idsFinset g \ insert s.id ∅).card ≤ (idsFinset g).card :=
                  Finset.card_le_card (Finset.sdiff_subset)
                have h2 := idsFinset_card_le g
                omega
            have hsum := sumLinesWith_ne_outOfFuel hsub_ne
            cases hs : sumLinesWith
                (fun sub => resolveFuel (g.length + 1) sub g (insert s.id ∅))
                s.recipe g with
            | outOfFuel => exact absurd hs hsum
            | cycleDetected => simp
            | unknown => simp
            | cost total => simp

/-- For an id present in the path set or the map, the canonical resolution
agrees with the resolution at the inner fuel `g.length + 1` used by the
recursive calls of the top-level resolution. -/
lemma resolveIn_eq_inner {sub : Supply} {g : List Supply}
    {visited : Finset String} (h : sub.id ∈ idsFinset g ∪ visited) :
    resolveIn sub g visited = resolveFuel (g.length + 1) sub g visited := by
  have hcard : (idsFinset g \ visited).card < g.length + 1 := by
    have h1 : (idsFinset g \ visited).card ≤ (idsFinset g).card :=
      Finset.card_le_card (Finset.sdiff_subset)
    have h2 := idsFinset_card_le g
    omega
  have hne := resolveFuel_ne_outOfFuel (g.length + 1) sub g visited h hcard
  exact resolveFuel_stable (g.length + 1) (g.length + 2) sub g visited
    (by omega) hne

/-! ### Cycle reports are sound: they exhibit a repeated id along one path -/

/-- One edge of the recipe graph: `b` is the supply the map yields for one of
`a`'s recipe lines. -/
def SupStep (g : List Supply) (a b : Supply) : Prop :=
  ∃ l ∈ a.recipe, findSupply g l.supplyId = some b

/-- A graph is acyclic when no id repeats along any recipe path starting at a
supply of the map. -/
def AcyclicGraph (g : List Supply) : Prop :=
  ∀ s ∈ g, ∀ p : List Supply, List.Chain (SupStep g) s p →
    ((s :: p).map (fun t => t.id)).Nodup

lemma resolveFuel_cycle_sound :
    ∀ fuel s g visited, resolveFuel fuel s g visited = .cycleDetected →
      ∃ p : List Supply, List.Chain (SupStep g) s p ∧
        (¬ ((s :: p).map (fun t => t.id)).Nodup ∨
          ∃ t ∈ s :: p, t.id ∈ visited) := by
  intro fuel
  induction fuel with
  | zero => intro s g visited h; simp [resolveFuel] at h
  | succ fuel ih =>
    intro s g visited h
    by_cases hvis : s.id ∈ visited
    · exact ⟨[], List.Chain.nil, Or.inr ⟨s, by simp, hvis⟩⟩
    · simp only [resolveFuel, if_neg hvis] at h
      by_cases hp : s.type = "purchased"
      · rw [if_pos hp] at h
        cases hpp : s.purchase_price with
        | none => rw [hpp] at h; simp at h
        | some price =>
          rw [hpp] at h
          cases hpq : s.purchase_quantity with
          | none => rw [hpq] at h; simp at h
          | some qty =>
            rw [hpq] at h
            dsimp only at h
            split at h <;> simp at h
      · rw [if_neg hp] at h
        by_cases hrec : s.recipe = []
        · rw [if_pos hrec] at h; simp at h
        · rw [if_neg hrec] at h
          cases hya : s.yield_amount with
          | none => rw [hya] at h; simp at h
          | some ya =>
            rw [hya] at h
            dsimp only at h
            by_cases hya0 : ya ≤ 0
            · rw [if_pos hya0] at h; simp at h
            · rw [if_neg hya0] at h
              have hsum : sumLinesWith
                  (fun sub => resolveFuel fuel sub g (insert s.id visited))
                  s.recipe g = .cycleDetected := by
                cases hs : sumLinesWith
                    (fun sub => resolveFuel fuel sub g (insert s.id visited))
                    s.recipe g with
                | outOfFuel => rw [hs] at h; simp at h
                | cycleDetected => rfl
                | unknown => rw [hs] at h; simp at h
                | cost total => rw [hs] at h; simp at h
              obtain ⟨l, hl, sub, hf, hr⟩ := sumLinesWith_cycle_exists hsum
              obtain ⟨p', hchain, hrep⟩ := ih sub g (insert s.id visited) hr
              refine ⟨sub :: p', List.Chain.cons ⟨l, hl, hf⟩ hchain, ?_⟩
              rcases hrep with hdup | ⟨t, ht, htid⟩
              · left
                intro hnodup
                rw [List.map_cons] at hnodup
                exact hdup hnodup.of_cons
              · rcases Finset.mem_insert.mp htid with heq | hvisited
                · left
                  intro hnodup
                  rw [List.map_cons] at hnodup
                  have hmem : s.id ∈ ((sub :: p').map (fun t => t.id)) := by
                    rw [← heq]
                    exact List.mem_map_of_mem _ ht
                  exact (List.nodup_cons.mp hnodup).1 hmem
                · exact Or.inr ⟨t, List.mem_cons_of_mem s ht, hvisited⟩

/-- From a fresh path set, a cycle report exhibits a recipe path from the
root along which some id repeats. -/
lemma getSupplyCostPerUnit_cycle_sound {s : Supply} {g : List Supply}
    (h : getSupplyCostPerUnit s g = .cycleDetected) :
    ∃ p : List Supply, List.Chain (SupStep g) s p ∧
      ¬ ((s :: p).map (fun t => t.id)).Nodup := by
  obtain ⟨p, hchain, hrep⟩ :=
    resolveFuel_cycle_sound (g.length + 2) s g ∅ h
  rcases hrep with hdup | ⟨t, _, htid⟩
  · exact ⟨p, hchain, hdup⟩
  · exact absurd htid (Finset.not_mem_empty t.id)

/-! ### Recipe validator and create / update supply handlers
(`src/routes/supplies.js` POST `/` lines 162-291 and PUT `/:id` lines
294-423; the validation logic of the two handlers is identical, with the
candidate id coming from the body or a fresh UUID on create and from the URL
on update). -/

/-- The units accepted by the validator (`VALID_UNITS`,
`src/routes/supplies.js` line 7). -/
def VALID_UNITS : List String := ["g", "ml", "unidad"]

/-- A raw recipe line from the request body: either field may be missing
(`none`); an empty-string supply id is falsy in JS.  The `supplyId` field
covers both accepted spellings (`supplyId` / `supply_id`). -/
structure RawLine where
  supplyId : Option String
  quantity : Option ℚ
  deriving Repr, DecidableEq

/-- `normalizeRecipeLine` (`src/routes/supplies.js` lines 21-26): drop the
line when `quantity == null` or the supply id is missing / falsy; no
positivity requirement on the quantity. -/
def normalizeRecipeLine (l : RawLine) : Option RecipeLine :=
  match l.quantity with
  | none => none
  | some q =>
    match l.supplyId with
    | none => none
    | some sid => if sid = "" then none else some ⟨sid, q⟩

/-- `Array.isArray(recipe) ? recipe.map(normalizeRecipeLine).filter(Boolean) : []`. -/
def normalizeRecipe (r : Option (List RawLine)) : List RecipeLine :=
  match r with
  | some arr => arr.filterMap normalizeRecipeLine
  | none => []

/-- The request body of POST / PUT supplies; absent fields are `none`, and an
absent or empty `name` / `type` is modelled as the empty string (both are
falsy in JS). -/
structure SupplyRequest where
  id : Option String
  name : String
  type : String
  unit : Option String
  purchasePrice : Option ℚ
  purchaseQuantity : Option ℚ
  recipe : Option (List RawLine)
  yieldAmount : Option ℚ
  yieldUnit : Option String
  deriving Repr, DecidableEq

/-- `!unit || !VALID_UNITS.includes(unit)` as a predicate on an optional
unit. -/
def validUnit (u : Option String) : Bool :=
  match u with
  | none => false
  | some s => VALID_UNITS.contains s

/-- All validation performed by the POST / PUT supply handlers before the
cycle check, in source order and with first failure winning, producing the
candidate supply object built at `src/routes/supplies.js` lines 210-234
(create) / 341-364 (update). -/
def preValidate (supplyId : String) (req : SupplyRequest) : Except String Supply :=
  if req.name = "" ∨ req.type = "" then
    .error "name y type son requeridos"
  else if req.type ≠ "purchased" ∧ req.type ≠ "composed" then
    .error "type debe ser purchased o composed"
  else if req.type = "purchased" then
    if ¬ validUnit req.unit then
      .error "purchased requiere unit (g, ml o unidad)"
    else
      match req.purchaseQuantity with
      | none => .error "purchased requiere purchaseQuantity > 0"
      | some q =>
        if q ≤ 0 then .error "purchased requiere purchaseQuantity > 0"
        else .ok {
          id := supplyId, name := req.name, type := "purchased",
          unit := req.unit, purchase_price := req.purchasePrice,
          purchase_quantity := some q, recipe := [],
          yield_amount := none, yield_unit := none }
  else
    let recipeArr := normalizeRecipe req.recipe
    if recipeArr = [] then
      .error "composed requiere recipe con al menos una linea"
    else
      match req.yieldAmount with
      | none => .error "composed requiere yieldAmount y yieldUnit"
      | some ya =>
        if ya ≤ 0 ∨ ¬ validUnit req.yieldUnit then
          .error "composed requiere yieldAmount y yieldUnit"
        else if recipeArr.any (fun l => l.supplyId = supplyId) then
          .error "Un insumo no puede referenciarse a si mismo en la receta"
        else .ok {
          id := supplyId, name := req.name, type := req.type,
          unit := none, purchase_price := none, purchase_quantity := none,
          recipe := recipeArr, yield_amount := some ya,
          yield_unit := req.yieldUnit }

def circularMsg : String := "Referencia circular en la receta"

/-- The shared core of the POST and PUT supply handlers: validate, insert
the candidate into a copy of the graph (replacing any same-id entry), run
the cost resolver on the candidate, and reject only a thrown circular
reference; any non-cycle outcome (including Unknown) proceeds to persist the
candidate. -/
def processSupply (supplyId : String) (req : SupplyRequest)
    (g : List Supply) : Except String Supply :=
  match preValidate supplyId req with
  | .error e => .error e
  | .ok cand =>
    if getSupplyCostPerUnit cand (insertSupply g cand) = .cycleDetected then
      .error circularMsg
    else .ok cand

/-- JS `String.prototype.trim()`: drop leading and trailing whitespace.
Modelled directly on the character list so that it evaluates. -/
def jsTrim (s : String) : String :=
  String.mk
    (((s.data.dropWhile (fun c => c.isWhitespace)).reverse.dropWhile
      (fun c => c.isWhitespace)).reverse)

/-- `const supplyId = id && String(id).trim() ? String(id).trim() : randomUUID()`;
the fresh UUID is a parameter. -/
def requestedId (reqId : Option String) (freshId : String) : String :=
  match reqId with
  | none => freshId
  | some s => if jsTrim s = "" then freshId else jsTrim s

/-- POST `/supplies`. -/
def createSupply (req : SupplyRequest) (freshId : String)
    (g : List Supply) : Except String Supply :=
  processSupply (requestedId req.id freshId) req g

/-- PUT `/supplies/:id`. -/
def updateSupply (id : String) (req : SupplyRequest)
    (g : List Supply) : Except String Supply :=
  processSupply id req g

/-! ### Catalog cost listing (`GET /supplies`, `src/routes/supplies.js`
lines 104-130) -/

/-- Per-supply cost computation of the GET handler: `costPerUnit` starts as
`null`, the resolver's return value replaces it, and a thrown circular
reference is caught and leaves `null`. -/
def costOrNull (s : Supply) (g : List Supply) : Option ℚ :=
  match getSupplyCostPerUnit s g with
  | .cost c => some c
  | _ => none

/-- The list response: every row is mapped to its id paired with its
independently computed cost. -/
def listSupplies (g : List Supply) : List (String × Option ℚ) :=
  g.map (fun s => (s.id, costOrNull s g))

/-! ### Order creation and the shared order counter
(`POST /orders`, `src/routes/orders.js` lines 140-245).

Every statement of the handler — the counter read, the counter upsert, the
order insert and the item inserts — sits between `BEGIN` (line 171) and
`COMMIT` (line 227), with `ROLLBACK` on any error (line 229).  The
transaction is therefore modelled as a single atomic step with a commit
flag: on commit all writes apply, on abort none do. -/

/-- The ledger state the order-creation transaction touches: the
`order_counter` settings row (absent when the key was never written; the
stored decimal string and `parseInt` / `String(n)` round-trip are modelled
as a `Nat`) and the ids of the existing orders. -/
structure OrdersDB where
  counter : Option Nat
  orderIds : List String
  deriving Repr, DecidableEq

/-- The decimal value of a character, when it is a digit. -/
def charDigit (c : Char) : Option Nat :=
  if c.isDigit then some (c.toNat - '0'.toNat) else none

/-- The decimal number spelled by a non-empty all-digit character list. -/
def decimalValue : List Char → Option Nat
  | [] => none
  | cs =>
    cs.foldl
      (fun acc? c =>
        match acc?, charDigit c with
        | some acc, some d => some (acc * 10 + d)
        | _, _ => none)
      (some 0)

/-- `CAST(REPLACE(id, '#', '') AS INTEGER)`: strip every `#` character and
read the remainder as a decimal number.  Ids written by this service always
have the form `#N`; a non-numeric remainder (which would abort the SQL cast)
is read as 0. -/
def orderIdNum (s : String) : Nat :=
  (decimalValue (s.data.filter (fun c => c ≠ '#'))).getD 0

/-- `SELECT MAX(...) FROM orders`, with `NULL` (no rows) read back as 0: the
maximum numeric suffix of the existing order ids. -/
def maxOrderSuffix (ids : List String) : Nat :=
  (ids.map orderIdNum).foldr max 0

/-- The next order number: counter value + 1 when the counter row exists,
otherwise the maximum existing suffix (0 when there are no orders) + 1. -/
def nextOrderNum (db : OrdersDB) : Nat :=
  match db.counter with
  | some v => v + 1
  | none => maxOrderSuffix db.orderIds + 1

/-- The order-creation transaction: on commit it allocates `#N`, persists
the counter and inserts the order; on abort it returns no id and leaves the
state untouched. -/
def createOrderTxn (db : OrdersDB) (commit : Bool) : Option String × OrdersDB :=
  if commit then
    let n := nextOrderNum db
    let orderId := "#" ++ toString n
    (some orderId, { counter := some n, orderIds := orderId :: db.orderIds })
  else (none, db)

/-! ### Closing an open account
(`POST /open-accounts/:id/close`, `src/routes/openAccounts.js` lines
98-210).  The tab's orders are given newest first, matching the
`ORDER BY created_at DESC` used to select the order the discount is applied
to. -/

/-- An order row as touched by the close-account transaction. -/
structure Order where
  id : String
  total : ℚ
  discount : Option ℚ
  discount_reason : Option String
  payment_method : Option String
  mercado_pago_account_id : Option String
  open_account_id : Option String
  closed_open_account_id : Option String
  closed_open_account_name : Option String
  deriving Repr, DecidableEq

/-- The bulk `UPDATE orders ... WHERE open_account_id = $3` of the close
handler (lines 140-155): payment method, Mercado Pago account (only for
`mercadopago`), history linkage, and the open-account link cleared. -/
def paymentUpdate (pm : String) (mpId : Option String)
    (accId accName : String) (o : Order) : Order :=
  { o with
    payment_method := some pm,
    mercado_pago_account_id := if pm = "mercadopago" then mpId else none,
    closed_open_account_id := some accId,
    closed_open_account_name := some accName,
    open_account_id := none }

/-- The audit note written on the discounted order (lines 160-163):
`existingReason ? existingReason + ' ' + part : part` with
`part = 'Descuento de la cuenta: ' + reason.trim()` and `existingReason`
the trimmed prior reason or the empty string. -/
def mkCloseReason (existing : Option String) (reasonTrim : String) : String :=
  let part := "Descuento de la cuenta: " ++ reasonTrim
  let ex := match existing with
    | some s => jsTrim s
    | none => ""
  if ex = "" then part else ex ++ " " ++ part

/-- The single-order discount update (lines 157-173): the new total is
clamped at 0, the `discount` field grows by the full discount amount, and
the audit note is appended to the prior reason. -/
def applyAccountDiscount (d : ℚ) (reasonTrim : String) (o : Order) : Order :=
  { o with
    total := max 0 (o.total - d),
    discount := some ((o.discount.getD 0) + d),
    discount_reason := some (mkCloseReason o.discount_reason reasonTrim) }

/-- Whether the discount step runs:
`discount != null && Number(discount) > 0` and a non-blank reason. -/
def discountGate (discount : Option ℚ) (reason : Option String) : Bool :=
  (match discount with
    | some d => decide (0 < d)
    | none => false)
  &&
  (match reason with
    | some r => decide (jsTrim r ≠ "")
    | none => false)

/-- The effect of the close-account transaction on the tab's orders (given
newest first): every order receives the payment update; when the discount
gate holds, the newest order (the `LIMIT 1` row of the
`ORDER BY created_at DESC` query) additionally receives the discount
update computed from its pre-transaction total, discount and reason. -/
def closeAccountOrders (orders : List Order) (pm : String)
    (mpId : Option String) (accId accName : String)
    (discount : Option ℚ) (reason : Option String) : List Order :=
  let updated := orders.map (paymentUpdate pm mpId accId accName)
  if discountGate discount reason then
    match updated, discount, reason with
    | o :: rest, some d, some r => applyAccountDiscount d (jsTrim r) o :: rest
    | l, _, _ => l
  else updated

/-! ### Branch lemmas for the resolver at the top level -/

lemma getSupplyCostPerUnit_purchased_eq (s : Supply) (g : List Supply)
    (hty : s.type = "purchased") :
    getSupplyCostPerUnit s g =
      match s.purchase_price, s.purchase_quantity with
      | some price, some qty =>
        if qty ≤ 0 then .unknown else .cost (price / qty)
      | some _, none => .unknown
      | none, _ => .unknown := by
  show resolveFuel (g.length + 1 + 1) s g ∅ = _
  rw [resolveFuel]
  simp [Finset.not_mem_empty, hty]

lemma getSupplyCostPerUnit_composed_eq (s : Supply) (g : List Supply)
    (hty : s.type ≠ "purchased") :
    getSupplyCostPerUnit s g =
      if s.recipe = [] then .unknown
      else
        match s.yield_amount with
        | none => .unknown
        | some ya =>
          if ya ≤ 0 then .unknown
          else
            match sumLinesWith
                (fun sub => resolveFuel (g.length + 1) sub g (insert s.id ∅))
                s.recipe g with
            | .cost total => .cost (total / ya)
            | r => r := by
  show resolveFuel (g.length + 1 + 1) s g ∅ = _
  rw [resolveFuel]
  simp only [Finset.not_mem_empty, if_false, if_neg hty]

/-- C9: cost resolution terminates on every finite supply graph, including
cyclic graphs and dangling references: for every supply and graph it returns
a numeric cost, the Unknown sentinel, or a cycle report — the per-path
in-progress set bounds the recursion depth by the number of supplies. -/
theorem C9_resolution_total (s : Supply) (g : List Supply) :
    getSupplyCostPerUnit s g = .cycleDetected ∨
    getSupplyCostPerUnit s g = .unknown ∨
    ∃ c, getSupplyCostPerUnit s g = .cost c := by
  have h := getSupplyCostPerUnit_ne_outOfFuel s g
  cases hr : getSupplyCostPerUnit s g with
  | outOfFuel => exact absurd hr h
  | cycleDetected => exact Or.inl rfl
  | unknown => exact Or.inr (Or.inl rfl)
  | cost c => exact Or.inr (Or.inr ⟨c, rfl⟩)

/-- C4: a Purchased supply with a present price and a positive present
quantity resolves to `purchasePrice / purchaseQuantity`; with the price
absent, or the quantity absent or ≤ 0, it resolves to Unknown. -/
theorem C4_purchased_cost (s : Supply) (g : List Supply)
    (hty : s.type = "purchased") :
    (∀ p q, s.purchase_price = some p → s.purchase_quantity = some q →
      0 < q → getSupplyCostPerUnit s g = .cost (p / q)) ∧
    (s.purchase_price = none → getSupplyCostPerUnit s g = .unknown) ∧
    (s.purchase_quantity = none → getSupplyCostPerUnit s g = .unknown) ∧
    (∀ q, s.purchase_quantity = some q → q ≤ 0 →
      getSupplyCostPerUnit s g = .unknown) := by
  have heq := getSupplyCostPerUnit_purchased_eq s g hty
  refine ⟨?_, ?_, ?_, ?_⟩
  · intro p q hp hq hqpos
    rw [heq, hp, hq]
    simp [not_le.mpr hqpos]
  · intro hp
    rw [heq, hp]
  · intro hq
    rw [heq, hq]
    cases s.purchase_price <;> simp
  · intro q hq hq0
    rw [heq, hq]
    cases s.purchase_price <;> simp [hq0]

/-- Witness for C4 at a concrete purchased supply (price 10, quantity 4)
resolving to 10 / 4, and at one with quantity 0 resolving to Unknown. -/
theorem C4_purchased_cost_witness :
    getSupplyCostPerUnit
      ⟨"p", "P", "purchased", some "g", some 10, some 4, [], none, none⟩ []
      = .cost (10 / 4) ∧
    getSupplyCostPerUnit
      ⟨"z", "Z", "purchased", some "g", some 10, some 0, [], none, none⟩ []
      = .unknown := by
  constructor
  · exact (C4_purchased_cost
      ⟨"p", "P", "purchased", some "g", some 10, some 4, [], none, none⟩ []
      rfl).1 10 4 rfl rfl (by norm_num)
  · exact (C4_purchased_cost
      ⟨"z", "Z", "purchased", some "g", some 10, some 0, [], none, none⟩ []
      rfl).2.2.2 0 rfl (by norm_num)

/-- C3: a Composed supply whose every recipe line references a present
supply resolving to a known cost resolves to
`(Σ lineQuantity × lineCost) / yieldAmount`; an empty recipe, an absent or
non-positive yield, and a first failing line (absent referenced supply or
Unknown sub-resolution, with all earlier lines resolving) each give Unknown
— a value, never a partial sum or an exception. -/
theorem C3_composed_cost (s : Supply) (g : List Supply)
    (hty : s.type = "composed") :
    (s.recipe = [] → getSupplyCostPerUnit s g = .unknown) ∧
    (s.yield_amount = none → getSupplyCostPerUnit s g = .unknown) ∧
    (∀ ya, s.yield_amount = some ya → ya ≤ 0 →
      getSupplyCostPerUnit s g = .unknown) ∧
    (∀ ya (f : RecipeLine → ℚ), s.yield_amount = some ya → 0 < ya →
      s.recipe ≠ [] →
      (∀ l ∈ s.recipe, ∃ sub, findSupply g l.supplyId = some sub ∧
        resolveIn sub g {s.id} = .cost (f l)) →
      getSupplyCostPerUnit s g =
        .cost ((s.recipe.map (fun l => f l * l.quantity)).sum / ya)) ∧
    (∀ ya pre line post, s.yield_amount = some ya → 0 < ya →
      s.recipe = pre ++ line :: post →
      (∀ l ∈ pre, ∃ sub c, findSupply g l.supplyId = some sub ∧
        resolveIn sub g {s.id} = .cost c) →
      (findSupply g line.supplyId = none ∨
        ∃ sub, findSupply g line.supplyId = some sub ∧
          resolveIn sub g {s.id} = .unknown) →
      getSupplyCostPerUnit s g = .unknown) := by
  have hty' : s.type ≠ "purchased" := by rw [hty]; decide
  have heq := getSupplyCostPerUnit_composed_eq s g hty'
  have hconv : ∀ sub : Supply, sub.id ∈ idsFinset g →
      resolveFuel (g.length + 1) sub g (insert s.id ∅) =
        resolveIn sub g {s.id} := by
    intro sub hmem
    exact (resolveIn_eq_inner (Finset.mem_union.mpr (Or.inl hmem))).symm
  refine ⟨?_, ?_, ?_, ?_, ?_⟩
  · intro hrec
    rw [heq, if_pos hrec]
  · intro hyn
    rw [heq]
    by_cases hrec : s.recipe = []
    · rw [if_pos hrec]
    · rw [if_neg hrec, hyn]
  · intro ya hya hya0
    rw [heq]
    by_cases hrec : s.recipe = []
    · rw [if_pos hrec]
    · rw [if_neg hrec, hya]
      simp [hya0]
  · intro ya f hya hyapos hrec hlines
    rw [heq, if_neg hrec, hya]
    dsimp only
    rw [if_neg (not_le.mpr hyapos)]
    have hsum := @sumLinesWith_cost
      (fun sub => resolveFuel (g.length + 1) sub g (insert s.id ∅))
      s.recipe g f ?hyp
    · rw [hsum]
    case hyp =>
      intro l hl
      obtain ⟨sub, hf, hr⟩ := hlines l hl
      exact ⟨sub, hf,
        (hconv sub (mem_idsFinset_of_mem (findSupply_mem hf).1)).trans hr⟩
  · intro ya pre line post hya hyapos hsplit hpre hline
    have hrec : s.recipe ≠ [] := by rw [hsplit]; simp
    rw [heq, if_neg hrec, hya]
    dsimp only
    rw [if_neg (not_le.mpr hyapos)]
    have hsum : sumLinesWith
        (fun sub => resolveFuel (g.length + 1) sub g (insert s.id ∅))
        s.recipe g = .unknown := by
      rw [hsplit]
      apply sumLinesWith_unknown_of_break
      · intro l hl
        obtain ⟨sub, c, hf, hr⟩ := hpre l hl
        exact ⟨sub, c, hf,
          (hconv sub (mem_idsFinset_of_mem (findSupply_mem hf).1)).trans hr⟩
      · rcases hline with hf | ⟨sub, hf, hr⟩
        · exact Or.inl hf
        · exact Or.inr ⟨sub, hf,
            (hconv sub (mem_idsFinset_of_mem (findSupply_mem hf).1)).trans hr⟩
    rw [hsum]

/-- The purchased supply of the worked spec example (price 5, quantity 1). -/
def wsB : Supply := ⟨"b", "B", "purchased", some "g", some 5, some 1, [], none, none⟩

/-- The composed supply of the worked spec example (yield 10, recipe 2 × B). -/
def wsA : Supply := ⟨"a", "A", "composed", none, none, none, [⟨"b", 2⟩], some 10, some "g"⟩

/-- Witness for C3: the spec's worked example — A composed with yield 10 and
recipe 2 × B, B purchased at 5 per 1 — resolves to (2 × 5) / 10 = 1. -/
theorem C3_composed_cost_witness :
    getSupplyCostPerUnit wsA [wsA, wsB] = .cost 1 := by
  have h := (C3_composed_cost wsA [wsA, wsB] rfl).2.2.2.1 10 (fun _ => 5)
    rfl (by norm_num) (by simp [wsA]) ?hlines
  · rw [h]
    simp [wsA]
    norm_num
  case hlines =>
    intro l hl
    simp only [wsA] at hl
    rw [List.mem_singleton] at hl
    subst hl
    refine ⟨wsB, ?_, ?_⟩
    · simp [findSupply, wsA, wsB, List.find?]
    · show resolveFuel (2 + 2) wsB [wsA, wsB] {"a"} = .cost 5
      norm_num [resolveFuel, wsB]
      intro h
      simp at h

/-! ### C5: per-path cycle detection -/

/-- A composed supply whose first recipe line dangles and whose second line
closes a cycle through [cycY]. -/
def cycX : Supply :=
  ⟨"x", "X", "composed", none, none, none, [⟨"zz", 1⟩, ⟨"y", 1⟩], some 1, some "g"⟩

/-- A composed supply pointing back at [cycX]. -/
def cycY : Supply :=
  ⟨"y", "Y", "composed", none, none, none, [⟨"x", 1⟩], some 1, some "g"⟩

/-- Counterexample for C5: in the graph {X, Y} the id "x" repeats along the
single recipe path X → Y → X, yet resolving from X reports Unknown, not
CycleDetected — X's first, dangling line short-circuits the walk before the
cycle is reached. -/
theorem C5_per_path_cycle_counterexample :
    List.Chain (SupStep [cycX, cycY]) cycX [cycY, cycX] ∧
    ¬ (([cycX, cycY, cycX]).map (fun t => t.id)).Nodup ∧
    getSupplyCostPerUnit cycX [cycX, cycY] = .unknown ∧
    getSupplyCostPerUnit cycX [cycX, cycY] ≠ .cycleDetected := by
  refine ⟨?_, ?_, ?_, ?_⟩
  · refine List.Chain.cons ⟨⟨"y", 1⟩, ?_, ?_⟩
      (List.Chain.cons ⟨⟨"x", 1⟩, ?_, ?_⟩ List.Chain.nil)
    · simp [cycX]
    · simp [findSupply, cycX, cycY, List.find?]
    · simp [cycY]
    · simp [findSupply, cycX, cycY, List.find?]
  · simp [cycX, cycY]
  · simp [getSupplyCostPerUnit, resolveFuel, sumLinesWith, findSupply,
      cycX, cycY, List.find?]
  · simp [getSupplyCostPerUnit, resolveFuel, sumLinesWith, findSupply,
      cycX, cycY, List.find?]

/-- C5 (amended): on an acyclic graph — no id repeats along any recipe path
from a supply of the map, which permits sibling branches sharing a common
sub-supply — resolution never reports CycleDetected; and every CycleDetected
report is sound: it exhibits a recipe path from the root along which some id
repeats.  The converse direction of the original claim fails: a cycle hidden
behind an earlier Unknown recipe line is not reported (see the
counterexample). -/
theorem C5_per_path_cycle (g : List Supply) :
    (AcyclicGraph g → ∀ s ∈ g, getSupplyCostPerUnit s g ≠ .cycleDetected) ∧
    (∀ s, getSupplyCostPerUnit s g = .cycleDetected →
      ∃ p, List.Chain (SupStep g) s p ∧
        ¬ ((s :: p).map (fun t => t.id)).Nodup) := by
  constructor
  · intro hac s hs hcy
    obtain ⟨p, hchain, hdup⟩ := getSupplyCostPerUnit_cycle_sound hcy
    exact hdup (hac s hs p hchain)
  · intro s hcy
    exact getSupplyCostPerUnit_cycle_sound hcy

/-- A purchased leaf supply used to witness the acyclic case of C5. -/
def leafP : Supply := ⟨"p", "P", "purchased", some "g", some 3, some 1, [], none, none⟩

/-- Witness for C5: the singleton graph {P} with P purchased is acyclic and
resolution from P does not report a cycle. -/
theorem C5_per_path_cycle_witness :
    getSupplyCostPerUnit leafP [leafP] ≠ .cycleDetected := by
  have hac : AcyclicGraph [leafP] := by
    intro s hs p hp
    rw [List.mem_singleton] at hs
    subst hs
    cases p with
    | nil => simp
    | cons b t =>
      cases hp with
      | cons hstep _ =>
        obtain ⟨l, hl, _⟩ := hstep
        simp [leafP] at hl
  exact (C5_per_path_cycle [leafP]).1 hac leafP (by simp)

/-- C8: the catalog listing computes each supply's cost independently,
catching a thrown cycle per supply: a supply that resolves to a cost appears
in the list with that cost, and a supply that resolves Unknown or throws a
cycle appears with a null cost — regardless of any other supply in the
graph. -/
theorem C8_catalog_costs (g : List Supply) :
    (∀ s ∈ g, ∀ c, getSupplyCostPerUnit s g = .cost c →
      (s.id, some c) ∈ listSupplies g) ∧
    (∀ s ∈ g, getSupplyCostPerUnit s g = .unknown →
      (s.id, (none : Option ℚ)) ∈ listSupplies g) ∧
    (∀ s ∈ g, getSupplyCostPerUnit s g = .cycleDetected →
      (s.id, (none : Option ℚ)) ∈ listSupplies g) := by
  refine ⟨?_, ?_, ?_⟩
  · intro s hs c hc
    exact List.mem_map.mpr ⟨s, hs, by simp [costOrNull, hc]⟩
  · intro s hs hc
    exact List.mem_map.mpr ⟨s, hs, by simp [costOrNull, hc]⟩
  · intro s hs hc
    exact List.mem_map.mpr ⟨s, hs, by simp [costOrNull, hc]⟩

/-- A supply directly on a cycle (its recipe references itself in the
stored data). -/
def selfC : Supply := ⟨"c", "C", "composed", none, none, none, [⟨"c", 1⟩], some 1, some "g"⟩

/-- A purchased supply unrelated to the cycle. -/
def goodB : Supply := ⟨"b", "B", "purchased", some "g", some 10, some 2, [], none, none⟩

/-- Witness for C8: in a catalog with one supply on a cycle and one
unrelated purchased supply, the listing still carries the purchased
supply's cost and reports null for the cyclic one. -/
theorem C8_catalog_costs_witness :
    ("b", some (5 : ℚ)) ∈ listSupplies [selfC, goodB] ∧
    listSupplies [selfC, goodB] = [("c", (none : Option ℚ)), ("b", some 5)] := by
  constructor
  · refine (C8_catalog_costs [selfC, goodB]).1 goodB (by simp) 5 ?_
    norm_num [getSupplyCostPerUnit, resolveFuel, goodB]
  · simp [listSupplies, costOrNull, getSupplyCostPerUnit, resolveFuel,
      sumLinesWith, findSupply, selfC, goodB, List.find?]
    norm_num

/-! ### Validator facts -/

lemma findSupply_insertSupply (g : List Supply) (s : Supply) (k : String) :
    findSupply (insertSupply g s) k =
      if k = s.id then some s else findSupply g k := by
  unfold insertSupply findSupply
  by_cases hk : k = s.id
  · rw [if_pos hk]
    exact List.find?_cons_of_pos _ (by simp [hk])
  · rw [if_neg hk]
    rw [List.find?_cons_of_neg _ (by simp; exact fun h => hk h.symm)]
    induction g with
    | nil => rfl
    | cons a t ih =>
      by_cases ha : a.id = s.id
      · rw [List.filter_cons_of_neg (by simp [ha])]
        rw [ih]
        rw [List.find?_cons_of_neg _
          (by simp; intro hke; exact hk (hke.symm.trans ha))]
      · rw [List.filter_cons_of_pos (by simp [ha])]
        by_cases hak : a.id = k
        · rw [List.find?_cons_of_pos _ (by simp [hak]),
            List.find?_cons_of_pos _ (by simp [hak])]
        · rw [List.find?_cons_of_neg _ (by simp [hak]),
            List.find?_cons_of_neg _ (by simp [hak])]
          exact ih

lemma processSupply_ok {supplyId : String} {req : SupplyRequest}
    {g : List Supply} {cand : Supply}
    (h : processSupply supplyId req g = .ok cand) :
    preValidate supplyId req = .ok cand ∧
    getSupplyCostPerUnit cand (insertSupply g cand) ≠ .cycleDetected := by
  unfold processSupply at h
  cases hpv : preValidate supplyId req with
  | error e => rw [hpv] at h; simp at h
  | ok c =>
    rw [hpv] at h
    dsimp only at h
    by_cases hcy : getSupplyCostPerUnit c (insertSupply g c) = .cycleDetected
    · rw [if_pos hcy] at h
      simp at h
    · rw [if_neg hcy] at h
      cases h
      exact ⟨rfl, hcy⟩

lemma normalizeRecipe_supplyId_ne_empty {r : Option (List RawLine)}
    {l : RecipeLine} (h : l ∈ normalizeRecipe r) : l.supplyId ≠ "" := by
  cases r with
  | none => simp [normalizeRecipe] at h
  | some arr =>
    simp only [normalizeRecipe] at h
    obtain ⟨raw, _, hn⟩ := List.mem_filterMap.mp h
    unfold normalizeRecipeLine at hn
    cases hq : raw.quantity with
    | none => rw [hq] at hn; simp at hn
    | some q =>
      rw [hq] at hn
      cases hs : raw.supplyId with
      | none => rw [hs] at hn; simp at hn
      | some sid =>
        rw [hs] at hn
        dsimp only at hn
        by_cases he : sid = ""
        · rw [if_pos he] at hn; simp at hn
        · rw [if_neg he] at hn
          cases hn
          exact he

lemma preValidate_ok_composed {supplyId : String} {req : SupplyRequest}
    {cand : Supply} (h : preValidate supplyId req = .ok cand)
    (hty : cand.type = "composed") :
    cand.recipe = normalizeRecipe req.recipe ∧ cand.recipe ≠ [] := by
  unfold preValidate at h
  by_cases h1 : req.name = "" ∨ req.type = ""
  · rw [if_pos h1] at h; simp at h
  · rw [if_neg h1] at h
    by_cases h2 : req.type ≠ "purchased" ∧ req.type ≠ "composed"
    · rw [if_pos h2] at h; simp at h
    · rw [if_neg h2] at h
      by_cases h3 : req.type = "purchased"
      · rw [if_pos h3] at h
        by_cases h4 : ¬ validUnit req.unit
        · rw [if_pos h4] at h; simp at h
        · rw [if_neg h4] at h
          cases hq : req.purchaseQuantity with
          | none => rw [hq] at h; simp at h
          | some q =>
            rw [hq] at h
            dsimp only at h
            by_cases h5 : q ≤ 0
            · rw [if_pos h5] at h; simp at h
            · rw [if_neg h5] at h
              cases h
              simp at hty
      · rw [if_neg h3] at h
        dsimp only at h
        by_cases h6 : normalizeRecipe req.recipe = []
        · rw [if_pos h6] at h; simp at h
        · rw [if_neg h6] at h
          cases hya : req.yieldAmount with
          | none => rw [hya] at h; simp at h
          | some ya =>
            rw [hya] at h
            dsimp only at h
            by_cases h7 : ya ≤ 0 ∨ ¬ validUnit req.yieldUnit
            · rw [if_pos h7] at h; simp at h
            · rw [if_neg h7] at h
              by_cases h8 : ((normalizeRecipe req.recipe).any
                  (fun l => l.supplyId = supplyId) = true)
              · rw [if_pos h8] at h; simp at h
              · rw [if_neg h8] at h
                cases h
                exact ⟨rfl, h6⟩

/-- C2 (amended): for every candidate accepted by pre-validation, the cycle
check runs the resolver on the candidate inserted into a copy of the graph
(replacing any existing entry with the same id); a CycleDetected result is
rejected as the circular-reference validation error, and any other result
proceeds to accept.  The original claim's stronger promise — that the cycle
is detected even when the candidate's cost is Unknown for other reasons —
fails, because an earlier Unknown recipe line short-circuits the walk before
the cycle (see the counterexample). -/
theorem C2_cycle_check (supplyId : String) (req : SupplyRequest)
    (g : List Supply) (cand : Supply)
    (hval : preValidate supplyId req = .ok cand) :
    (∀ k, findSupply (insertSupply g cand) k =
      if k = cand.id then some cand else findSupply g k) ∧
    (getSupplyCostPerUnit cand (insertSupply g cand) = .cycleDetected →
      processSupply supplyId req g = .error circularMsg) ∧
    (getSupplyCostPerUnit cand (insertSupply g cand) ≠ .cycleDetected →
      processSupply supplyId req g = .ok cand) := by
  refine ⟨fun k => findSupply_insertSupply g cand k, ?_, ?_⟩
  · intro hcy
    unfold processSupply
    rw [hval]
    dsimp only
    rw [if_pos hcy]
  · intro hcy
    unfold processSupply
    rw [hval]
    dsimp only
    rw [if_neg hcy]

/-- The request whose first recipe line dangles ("zz" is nowhere in the
graph) and whose second line closes a cycle through [cycY]. -/
def reqMaskedX : SupplyRequest :=
  ⟨some "x", "X", "composed", none, none, none,
    some [⟨some "zz", some 1⟩, ⟨some "y", some 1⟩], some 1, some "g"⟩

/-- The same request without the dangling first line. -/
def reqPlainX : SupplyRequest :=
  ⟨some "x", "X", "composed", none, none, none,
    some [⟨some "y", some 1⟩], some 1, some "g"⟩

/-- The candidate built from [reqPlainX]. -/
def cycX2 : Supply :=
  ⟨"x", "X", "composed", none, none, none, [⟨"y", 1⟩], some 1, some "g"⟩

/-- Counterexample for C2: against a graph holding Y (whose recipe points at
"x"), the candidate X with recipe [zz, y] — a real cycle x → y → x — is
ACCEPTED because the dangling line "zz" makes the resolver return Unknown
before reaching the cycle; the same candidate without the dangling line is
rejected as circular, showing the cycle is real. -/
theorem C2_cycle_check_counterexample :
    processSupply "x" reqMaskedX [cycY] = .ok cycX ∧
    getSupplyCostPerUnit cycX (insertSupply [cycY] cycX) = .unknown ∧
    processSupply "x" reqPlainX [cycY] = .error circularMsg := by
  refine ⟨by decide, by decide, by decide⟩

/-- A plain purchased creation request. -/
def reqPurch : SupplyRequest :=
  ⟨some "wp", "WP", "purchased", some "g", some 4, some 2, none, none, none⟩

/-- The candidate built from [reqPurch]. -/
def candPurch : Supply :=
  ⟨"wp", "WP", "purchased", some "g", some 4, some 2, [], none, none⟩

/-- Witness for C2: a purchased candidate validates, its resolution in the
extended graph is not a cycle, and creation accepts it. -/
theorem C2_cycle_check_witness :
    processSupply "wp" reqPurch [] = .ok candPurch := by
  refine (C2_cycle_check "wp" reqPurch [] candPurch ?_).2.2 ?_
  · decide
  · decide

/-- The composed creation request with a zero line quantity. -/
def reqZeroQty : SupplyRequest :=
  ⟨some "a0", "A0", "composed", none, none, none,
    some [⟨some "b", some 0⟩], some 1, some "g"⟩

/-- The candidate built from [reqZeroQty]. -/
def candZeroQty : Supply :=
  ⟨"a0", "A0", "composed", none, none, none, [⟨"b", 0⟩], some 1, some "g"⟩

/-- Counterexample for C7: the validator accepts a composed supply whose
only recipe line has quantity 0 — no positivity check exists on line
quantities. -/
theorem C7_composed_validation_counterexample :
    processSupply "a0" reqZeroQty [] = .ok candZeroQty ∧
    ¬ (∀ l ∈ candZeroQty.recipe, 0 < l.quantity) := by
  constructor
  · decide
  · intro hall
    have h := hall ⟨"b", 0⟩ (by simp [candZeroQty])
    norm_num at h

/-- C7 (amended): every composed supply accepted by the validator (create or
update both run `processSupply`) has, after normalization, at least one
recipe line, and every line carries a non-empty supply id and a present
quantity; the validator does not require the quantity to be positive. -/
theorem C7_composed_validation (supplyId : String) (req : SupplyRequest)
    (g : List Supply) (cand : Supply)
    (h : processSupply supplyId req g = .ok cand)
    (hty : cand.type = "composed") :
    cand.recipe ≠ [] ∧ ∀ l ∈ cand.recipe, l.supplyId ≠ "" := by
  obtain ⟨hpv, _⟩ := processSupply_ok h
  obtain ⟨hrec, hne⟩ := preValidate_ok_composed hpv hty
  exact ⟨hne, fun l hl => normalizeRecipe_supplyId_ne_empty (hrec ▸ hl)⟩

/-- A well-formed composed creation request. -/
def reqGoodC : SupplyRequest :=
  ⟨some "a2", "A2", "composed", none, none, none,
    some [⟨some "b", some 2⟩], some 10, some "g"⟩

/-- The candidate built from [reqGoodC]. -/
def candGoodC : Supply :=
  ⟨"a2", "A2", "composed", none, none, none, [⟨"b", 2⟩], some 10, some "g"⟩

/-- Witness for C7 at a concrete accepted composed supply. -/
theorem C7_composed_validation_witness :
    candGoodC.recipe ≠ [] ∧ ∀ l ∈ candGoodC.recipe, l.supplyId ≠ "" := by
  exact C7_composed_validation "a2" reqGoodC [] candGoodC
    (by decide) rfl

/-- C6: the next order id is `"#" + (counter + 1)` when the shared counter
row exists, and `"#" + (max numeric suffix of existing ids, or 0, + 1)` when
it is absent; the counter read-increment-persist and the order insertion
form one atomic transaction, so an aborted transaction consumes no counter
value and inserts nothing. -/
theorem C6_order_sequencer (db : OrdersDB) :
    (∀ v, db.counter = some v →
      createOrderTxn db true =
        (some ("#" ++ toString (v + 1)),
          ⟨some (v + 1), ("#" ++ toString (v + 1)) :: db.orderIds⟩)) ∧
    (db.counter = none →
      createOrderTxn db true =
        (some ("#" ++ toString (maxOrderSuffix db.orderIds + 1)),
          ⟨some (maxOrderSuffix db.orderIds + 1),
            ("#" ++ toString (maxOrderSuffix db.orderIds + 1)) :: db.orderIds⟩)) ∧
    createOrderTxn db false = (none, db) := by
  refine ⟨?_, ?_, rfl⟩
  · intro v hv
    simp [createOrderTxn, nextOrderNum, hv]
  · intro hv
    simp [createOrderTxn, nextOrderNum, hv]

/-- Witness for C6: with counter 7 the next id is #8 and the counter becomes
8; with no counter and ids #3, #9, #4 the next id is #10; an aborted
transaction leaves the state untouched. -/
theorem C6_order_sequencer_witness :
    createOrderTxn ⟨some 7, ["#7"]⟩ true =
      (some "#8", ⟨some 8, ["#8", "#7"]⟩) ∧
    createOrderTxn ⟨none, ["#3", "#9", "#4"]⟩ true =
      (some "#10", ⟨some 10, ["#10", "#3", "#9", "#4"]⟩) ∧
    createOrderTxn ⟨some 7, ["#7"]⟩ false = (none, ⟨some 7, ["#7"]⟩) := by
  refine ⟨?_, ?_, (C6_order_sequencer ⟨some 7, ["#7"]⟩).2.2⟩
  · exact ((C6_order_sequencer ⟨some 7, ["#7"]⟩).1 7 rfl).trans (by decide)
  · exact ((C6_order_sequencer ⟨none, ["#3", "#9", "#4"]⟩).2.1 rfl).trans
      (by decide)

/-! ### Frame lemmas for the close-account transaction -/

lemma discountGate_true_elim {discount : Option ℚ} {reason : Option String}
    (h : discountGate discount reason = true) :
    ∃ d r, discount = some d ∧ 0 < d ∧ reason = some r ∧ jsTrim r ≠ "" := by
  unfold discountGate at h
  cases discount with
  | none => simp at h
  | some d =>
    cases reason with
    | none => simp at h
    | some r =>
      simp at h
      exact ⟨d, r, rfl, h.1, rfl, h.2⟩

lemma closeAccountOrders_gate_false {orders : List Order} {pm : String}
    {mpId : Option String} {accId accName : String} {discount : Option ℚ}
    {reason : Option String} (h : discountGate discount reason = false) :
    closeAccountOrders orders pm mpId accId accName discount reason =
      orders.map (paymentUpdate pm mpId accId accName) := by
  unfold closeAccountOrders
  simp [h]

lemma closeAccountOrders_gate_true_cons {o0 : Order} {t : List Order}
    {pm : String} {mpId : Option String} {accId accName : String}
    {d : ℚ} {r : String}
    (h : discountGate (some d) (some r) = true) :
    closeAccountOrders (o0 :: t) pm mpId accId accName (some d) (some r) =
      applyAccountDiscount d (jsTrim r) (paymentUpdate pm mpId accId accName o0)
        :: t.map (paymentUpdate pm mpId accId accName) := by
  unfold closeAccountOrders
  simp [h]

lemma closeAccountOrders_gate_true_nil {pm : String} {mpId : Option String}
    {accId accName : String} {d : ℚ} {r : String}
    (h : discountGate (some d) (some r) = true) :
    closeAccountOrders [] pm mpId accId accName (some d) (some r) = [] := by
  unfold closeAccountOrders
  simp [h]

lemma paymentUpdate_preserves (pm : String) (mpId : Option String)
    (accId accName : String) (o : Order) :
    (paymentUpdate pm mpId accId accName o).total = o.total ∧
    (paymentUpdate pm mpId accId accName o).discount = o.discount ∧
    (paymentUpdate pm mpId accId accName o).discount_reason =
      o.discount_reason := by
  simp [paymentUpdate]

lemma applyAccountDiscount_payment_fields (d : ℚ) (rt : String) (o : Order) :
    (applyAccountDiscount d rt o).payment_method = o.payment_method ∧
    (applyAccountDiscount d rt o).open_account_id = o.open_account_id ∧
    (applyAccountDiscount d rt o).closed_open_account_id =
      o.closed_open_account_id ∧
    (applyAccountDiscount d rt o).closed_open_account_name =
      o.closed_open_account_name := by
  simp [applyAccountDiscount]

lemma discountGate_intro {d : ℚ} {r : String} (hd : 0 < d)
    (hr : jsTrim r ≠ "") : discountGate (some d) (some r) = true := by
  unfold discountGate
  simp [hd, hr]

lemma map_paymentUpdate_fields (orders : List Order) (pm : String)
    (mpId : Option String) (accId accName : String) (i : Nat) :
    ((orders.map (paymentUpdate pm mpId accId accName))[i]?).map
      (fun o => (o.total, o.discount, o.discount_reason)) =
    (orders[i]?).map (fun o => (o.total, o.discount, o.discount_reason)) := by
  rw [List.getElem?_map]
  cases orders[i]? <;> simp [paymentUpdate]

/-- C10: closing a tab mutates the total, discount and discount reason of at
most one order — the newest — and only when the discount is > 0 and the
reason is non-blank; every other order keeps those three fields (receiving
only the payment / account-linkage update); the mutated order's new total is
`max 0 (previous total − discount)`, so no order total becomes negative;
and every order of the closed tab carries the payment method, a cleared
open-account link and the history linkage. -/
theorem C10_close_frame (orders : List Order) (pm : String)
    (mpId : Option String) (accId accName : String)
    (discount : Option ℚ) (reason : Option String) (out : List Order)
    (hout : out = closeAccountOrders orders pm mpId accId accName discount reason) :
    out.length = orders.length ∧
    (∀ i : Nat, 0 < i →
      (out[i]?).map (fun o : Order => (o.total, o.discount, o.discount_reason)) =
        (orders[i]?).map (fun o : Order => (o.total, o.discount, o.discount_reason))) ∧
    (discountGate discount reason = false →
      ∀ i : Nat, (out[i]?).map (fun o : Order => (o.total, o.discount, o.discount_reason)) =
        (orders[i]?).map (fun o : Order => (o.total, o.discount, o.discount_reason))) ∧
    (∀ d r o0, discount = some d → 0 < d → reason = some r → jsTrim r ≠ "" →
      orders.head? = some o0 →
      (out.head?).map (fun o : Order => o.total) = some (max 0 (o0.total - d)) ∧
      (out.head?).map (fun o : Order => o.discount) =
        some (some (o0.discount.getD 0 + d))) ∧
    (∀ (i : Nat) (o o' : Order), orders[i]? = some o → out[i]? = some o' →
      0 ≤ o.total → 0 ≤ o'.total) ∧
    (∀ o', o' ∈ out →
      o'.payment_method = some pm ∧ o'.open_account_id = none ∧
      o'.closed_open_account_id = some accId ∧
      o'.closed_open_account_name = some accName) := by
  cases hg : discountGate discount reason with
  | false =>
    rw [closeAccountOrders_gate_false hg] at hout
    subst hout
    refine ⟨List.length_map _ _, ?_, ?_, ?_, ?_, ?_⟩
    · intro i _
      exact map_paymentUpdate_fields orders pm mpId accId accName i
    · intro _ i
      exact map_paymentUpdate_fields orders pm mpId accId accName i
    · intro d r o0 hdis hd0 hrea hrt _
      rw [hdis, hrea, discountGate_intro hd0 hrt] at hg
      simp at hg
    · intro i o o' ho ho' htot
      rw [List.getElem?_map, ho] at ho'
      simp at ho'
      rw [← ho']
      simpa [paymentUpdate] using htot
    · intro o' ho'
      obtain ⟨o, _, rfl⟩ := List.mem_map.mp ho'
      simp [paymentUpdate]
  | true =>
    obtain ⟨d, r, hdis, hd0, hrea, hrt⟩ := discountGate_true_elim hg
    subst hdis
    subst hrea
    cases orders with
    | nil =>
      rw [closeAccountOrders_gate_true_nil hg] at hout
      subst hout
      refine ⟨rfl, ?_, ?_, ?_, ?_, ?_⟩
      · intro i _; simp
      · intro _ i; simp
      · intro d' r' o0 _ _ _ _ hhead; simp at hhead
      · intro i o o' ho; simp at ho
      · intro o' ho'; simp at ho'
    | cons o0 t =>
      rw [closeAccountOrders_gate_true_cons hg] at hout
      subst hout
      refine ⟨by simp, ?_, ?_, ?_, ?_, ?_⟩
      · intro i hi
        obtain ⟨j, rfl⟩ : ∃ j, i = j + 1 := ⟨i - 1, by omega⟩
        rw [List.getElem?_cons_succ, List.getElem?_cons_succ]
        exact map_paymentUpdate_fields t pm mpId accId accName j
      · intro hfalse
        simp at hfalse
      · intro d' r' o0' hdis' hd0' hrea' hrt' hhead
        cases hdis'
        cases hrea'
        rw [List.head?_cons] at hhead
        cases hhead
        constructor
        · simp [applyAccountDiscount, paymentUpdate]
        · simp [applyAccountDiscount, paymentUpdate]
      · intro i o o' ho ho' htot
        cases i with
        | zero =>
          rw [List.getElem?_cons_zero] at ho ho'
          cases ho
          cases ho'
          simp only [applyAccountDiscount]
          exact le_max_left 0 _
        | succ j =>
          rw [List.getElem?_cons_succ] at ho ho'
          rw [List.getElem?_map, ho] at ho'
          simp at ho'
          rw [← ho']
          simpa [paymentUpdate] using htot
      · intro o' ho'
        rw [List.mem_cons] at ho'
        rcases ho' with rfl | ho'
        · simp [applyAccountDiscount, paymentUpdate]
        · obtain ⟨o, _, rfl⟩ := List.mem_map.mp ho'
          simp [paymentUpdate]

/-- The newest order of the example tab (total 30). -/
def ord30 : Order := ⟨"o30", 30, none, none, none, none, some "acct", none, none⟩

/-- The middle order of the example tab (total 20). -/
def ord20 : Order := ⟨"o20", 20, none, none, none, none, some "acct", none, none⟩

/-- The oldest order of the example tab (total 10). -/
def ord10 : Order := ⟨"o10", 10, none, none, none, none, some "acct", none, none⟩

/-- The example tab's orders, newest first. -/
def tabOrders : List Order := [ord30, ord20, ord10]

/-- Witness for C10 on the example tab with discount 45: the length is
preserved and the second order's total, discount and reason are untouched. -/
theorem C10_close_frame_witness :
    (closeAccountOrders tabOrders "efectivo" none "acct" "Cust"
      (some 45) (some "promo")).length = tabOrders.length ∧
    ((closeAccountOrders tabOrders "efectivo" none "acct" "Cust"
      (some 45) (some "promo"))[1]?).map
        (fun o : Order => (o.total, o.discount, o.discount_reason)) =
      (tabOrders[1]?).map
        (fun o : Order => (o.total, o.discount, o.discount_reason)) := by
  have h := C10_close_frame tabOrders "efectivo" none "acct" "Cust"
    (some 45) (some "promo") _ rfl
  exact ⟨h.1, h.2.1 1 (by norm_num)⟩

/-- Counterexample for C1: on the tab with totals [30, 20, 10] (newest
first) and discount 45, the close handler leaves totals [0, 20, 10] — the
whole discount lands on the newest order only — not the claimed [0, 0, 5];
with discount 100 the totals are again [0, 20, 10], not all zero. -/
theorem C1_discount_allocation_counterexample :
    ((closeAccountOrders tabOrders "efectivo" none "acct" "Cust"
        (some 45) (some "promo")).map (fun o : Order => o.total))
      = [0, 20, 10] ∧
    ([(0 : ℚ), 20, 10] ≠ [0, 0, 5]) ∧
    ((closeAccountOrders tabOrders "efectivo" none "acct" "Cust"
        (some 100) (some "promo")).map (fun o : Order => o.total))
      = [0, 20, 10] ∧
    ([(0 : ℚ), 20, 10] ≠ [0, 0, 0]) := by
  have htrim : jsTrim "promo" = "promo" := rfl
  refine ⟨?_, by norm_num, ?_, by norm_num⟩ <;>
    · simp [closeAccountOrders, discountGate, applyAccountDiscount,
        paymentUpdate, mkCloseReason, tabOrders, ord30, ord20, ord10,
        max_def, htrim] <;> norm_num

/-- C1 (amended): when a tab is closed with a positive discount and a
non-blank reason, the entire discount is applied to the newest order only:
its total becomes `max 0 (total − discount)` (clamped at 0, the excess
silently dropped), its `discount` field grows by the full amount, and the
audit note is recorded; the older orders' totals are untouched.  For totals
[30, 20, 10] and discount 45 the result is [0, 20, 10] with the newest
order's discount 45; for discount 100 it is [0, 20, 10] with discount 100,
and no error is raised. -/
theorem C1_discount_allocation :
    ((closeAccountOrders tabOrders "efectivo" none "acct" "Cust"
        (some 45) (some "promo")).map (fun o : Order => o.total))
      = [0, 20, 10] ∧
    ((closeAccountOrders tabOrders "efectivo" none "acct" "Cust"
        (some 45) (some "promo")).head?).map (fun o : Order => o.discount)
      = some (some 45) ∧
    ((closeAccountOrders tabOrders "efectivo" none "acct" "Cust"
        (some 45) (some "promo")).head?).map
          (fun o : Order => o.discount_reason)
      = some (some "Descuento de la cuenta: promo") ∧
    ((closeAccountOrders tabOrders "efectivo" none "acct" "Cust"
        (some 100) (some "promo")).map (fun o : Order => o.total))
      = [0, 20, 10] ∧
    ((closeAccountOrders tabOrders "efectivo" none "acct" "Cust"
        (some 100) (some "promo")).head?).map (fun o : Order => o.discount)
      = some (some 100) := by
  have htrim : jsTrim "promo" = "promo" := rfl
  refine ⟨?_, ?_, ?_, ?_, ?_⟩ <;>
    · simp [closeAccountOrders, discountGate, applyAccountDiscount,
        paymentUpdate, mkCloseReason, tabOrders, ord30, ord20, ord10,
        max_def, htrim] <;> norm_num
